import Mathlib

/-!
Verification development for the CLI todo application (`todo.py`).

The program is a command-line task manager: tasks are dictionaries with
fields `task` (string), `completed` (bool) and `created` (timestamp string),
persisted as a JSON list in a file.  We shallowly embed the data model and
the operations of the classes `TodoStorage`, `TodoValidator` and
`TodoManager` as pure Lean functions and prove the specified properties.

Modelling choices:
* A task record (`{'task': ..., 'completed': ..., 'created': ...}`) becomes
  the structure `Task`.
* The byte-level states of the backing file are modelled by `FileState`
  together with the parsed-document type `Json`: the file can be absent,
  unreadable (`IOError`), hold bytes that are not valid UTF-8 (raising
  `UnicodeDecodeError`, which the source's
  `except (json.JSONDecodeError, IOError)` clause does not catch, so it
  propagates out of `load_todos`), hold UTF-8 text that is not valid JSON
  (`json.JSONDecodeError`), or hold a valid JSON document of any shape,
  which `json.load` returns as-is.
* The manager operations are stated over the abstraction `Backing`, whose
  `stored` state is a well-formed persisted task list: the program itself
  only ever writes `json.dump` of a task list, which for this record shape
  (strings and booleans only) reads back exactly, and the caught failure
  states all load as `[]`.
* `Store` pairs the backing file with a counter of `save_todos`
  invocations, so that "save was never called" is expressible.
* `datetime.now()` is threaded into `add_task` as an explicit `now` string.
* Python element accesses that could raise `IndexError`
  (`todos[index - 1]`, `todos.pop(index - 1)`) are modelled with `Option`:
  a `none` result of `complete_task` / `remove_task` represents a crash.
-/

namespace Todo

/-- A todo record: `{'task': ..., 'completed': ..., 'created': ...}`
as built by `TodoManager.create_todo`. -/
structure Task where
  task : String
  completed : Bool
  created : String
deriving Repr, DecidableEq

/-- The backing-file abstraction over which the manager operations are
stated: missing file, `IOError` on read, `json.JSONDecodeError`, or a
well-formed persisted task list (the only document the program itself
writes).  The full byte-level behavior of `TodoStorage.load_todos`,
including the failure states this abstraction deliberately omits, is
modelled separately by `FileState` and `load_todos_file`. -/
inductive Backing where
  | absent
  | unreadable
  | malformed
  | stored (todos : List Task)
deriving Repr, DecidableEq

/-- The storage state: the backing file plus a count of how many times
`save_todos` has been invoked (used to express "save was not called"). -/
structure Store where
  backing : Backing
  saves : Nat
deriving Repr, DecidableEq

/-- Embeds `TodoStorage.load_todos`: returns the persisted list; a missing,
unreadable or JSON-malformed file yields `[]`. -/
def load_todos (st : Store) : List Task :=
  match st.backing with
  | .stored todos => todos
  | _ => []

/-- Embeds `TodoStorage.save_todos`: overwrites the file with the full list
(and bumps the save counter of the model). -/
def save_todos (todos : List Task) (st : Store) : Store :=
  { backing := .stored todos, saves := st.saves + 1 }

/-- The characters for which Python `str.isspace()` holds, i.e. exactly
what a no-argument `str.strip()` removes: the ASCII controls TAB, LF,
VT, FF, CR and `\x1c`-`\x1f`, the space, NEL `\x85`, NBSP `\xa0`,
OGHAM SPACE MARK U+1680, the typographic spaces U+2000-U+200A, LINE
SEPARATOR U+2028, PARAGRAPH SEPARATOR U+2029, NARROW NBSP U+202F, MEDIUM
MATHEMATICAL SPACE U+205F and IDEOGRAPHIC SPACE U+3000. -/
def pyIsSpace (c : Char) : Bool :=
  ('\t' ≤ c && c ≤ '\r') || ('\x1c' ≤ c && c ≤ '\x1f') || c = ' ' ||
  c = '\x85' || c = '\xa0' || c = '\u1680' ||
  ('\u2000' ≤ c && c ≤ '\u200a') || c = '\u2028' || c = '\u2029' ||
  c = '\u202f' || c = '\u205f' || c = '\u3000'

/-- Python `str.strip()`: remove leading and trailing whitespace. -/
def pyStrip (s : String) : String :=
  String.mk (((s.data.dropWhile pyIsSpace).reverse.dropWhile pyIsSpace).reverse)

/-- ASCII decimal digit test. -/
def isDigit (c : Char) : Bool :=
  '0' ≤ c && c ≤ '9'

/-- Numeric value of an ASCII decimal digit. -/
def digitVal (c : Char) : Nat :=
  c.toNat - '0'.toNat

/-- Parse the remainder of a Python integer literal after its first digit:
further digits, optionally separated by single underscores. -/
def parseDigits : List Char → Nat → Option Nat
  | [], acc => some acc
  | '_' :: c :: rest, acc =>
      if isDigit c then parseDigits rest (acc * 10 + digitVal c) else none
  | c :: rest, acc =>
      if isDigit c then parseDigits rest (acc * 10 + digitVal c) else none

/-- Python `int(s)` for base-10 strings: surrounding whitespace allowed,
optional sign, then digits (single underscores allowed between digits);
`none` models a raised `ValueError`. -/
def pyInt (s : String) : Option Int :=
  match (pyStrip s).data with
  | [] => none
  | '-' :: c :: rest =>
      if isDigit c then (parseDigits rest (digitVal c)).map (fun n => -(n : Int))
      else none
  | '+' :: c :: rest =>
      if isDigit c then (parseDigits rest (digitVal c)).map (fun n => (n : Int))
      else none
  | c :: rest =>
      if isDigit c then (parseDigits rest (digitVal c)).map (fun n => (n : Int))
      else none

/-- Embeds `TodoValidator.validate_task_text`: `bool(task and task.strip())`. -/
def validate_task_text (task : String) : Bool :=
  task != "" && pyStrip task != ""

/-- Embeds `TodoValidator.validate_task_index`: `1 <= index <= len(todos)`. -/
def validate_task_index (todos : List Task) (index : Int) : Bool :=
  decide (1 ≤ index ∧ index ≤ (todos.length : Int))

/-- Embeds `TodoValidator.get_valid_task_index`: parse the string as an integer
(`ValueError` gives `None`) and keep it only if `validate_task_index`
accepts it. -/
def get_valid_task_index (todos : List Task) (index_str : String) : Option Int :=
  match pyInt index_str with
  | none => none
  | some index =>
      if validate_task_index todos index then some index else none

/-- Embeds `TodoManager.create_todo`: fresh record with stripped text,
`completed = False` and the current timestamp. -/
def create_todo (task : String) (now : String) : Task :=
  { task := pyStrip task, completed := false, created := now }

/-- Embeds `TodoManager.add_task`: reject empty text, otherwise load, append the
new record and save. -/
def add_task (task : String) (now : String) (st : Store) : Bool × Store :=
  if !validate_task_text task then (false, st)
  else
    let todos := load_todos st
    let todos := todos ++ [create_todo task now]
    (true, save_todos todos st)

/-- Embeds `TodoManager.complete_task`: load, reject an empty list or an invalid
index, report `False` on an already-completed task, otherwise set
`completed = True` and save.  A `none` result models an out-of-range
`todos[index - 1]` access (`IndexError`). -/
def complete_task (index_str : String) (st : Store) : Option (Bool × Store) :=
  let todos := load_todos st
  if todos.isEmpty then some (false, st)
  else
    match get_valid_task_index todos index_str with
    | none => some (false, st)
    | some index =>
        match todos[(index - 1).toNat]? with
        | none => none
        | some todo =>
            if todo.completed then some (false, st)
            else
              some (true,
                save_todos (todos.set (index - 1).toNat { todo with completed := true }) st)

/-- Embeds `TodoManager.remove_task`: load, reject an empty list or an invalid
index, otherwise `todos.pop(index - 1)` and save.  A `none` result models
an out-of-range pop (`IndexError`). -/
def remove_task (index_str : String) (st : Store) : Option (Bool × Store) :=
  let todos := load_todos st
  if todos.isEmpty then some (false, st)
  else
    match get_valid_task_index todos index_str with
    | none => some (false, st)
    | some index =>
        match todos[(index - 1).toNat]? with
        | none => none
        | some _ =>
            some (true, save_todos (todos.eraseIdx (index - 1).toNat) st)

/-- Embeds `TodoManager.clear_completed`: count completed tasks; if none, report
`False` without saving, otherwise keep only the non-completed tasks and
save. -/
def clear_completed (st : Store) : Bool × Store :=
  let todos := load_todos st
  let completed_count := todos.countP (·.completed)
  if completed_count = 0 then (false, st)
  else (true, save_todos (todos.filter (fun t => !t.completed)) st)

/-- The structured content printed by `TodoManager.list_tasks` for a
non-empty list: each displayed line is a (display index, record) pair, and
the summary line carries the three counts. -/
structure ListOutput where
  pendingLines : List (Nat × Task)
  completedLines : List (Nat × Task)
  total : Nat
  completedCount : Nat
  pendingCount : Nat
deriving Repr, DecidableEq

/-- Embeds `TodoManager.list_tasks`: `none` is the early return on an empty list
("No tasks found"); otherwise pending tasks are enumerated from 1 and
completed tasks from `len(pending_tasks) + 1`, followed by the summary. -/
def list_tasks (st : Store) : Option ListOutput :=
  let todos := load_todos st
  if todos.isEmpty then none
  else
    let pending_tasks := todos.filter (fun t => !t.completed)
    let completed_tasks := todos.filter (·.completed)
    some
      { pendingLines := List.enumFrom 1 pending_tasks
        completedLines := List.enumFrom (pending_tasks.length + 1) completed_tasks
        total := todos.length
        completedCount := completed_tasks.length
        pendingCount := pending_tasks.length }

/-- A parsed JSON document, as returned by `json.load`: the backing file
may hold a document of any shape, not only a task list. -/
inductive Json where
  | null
  | bool (b : Bool)
  | num (n : Int)
  | str (s : String)
  | arr (elems : List Json)
  | obj (fields : List (String × Json))

/-- The JSON object `json.dump` writes for one task record. -/
def encodeTask (t : Task) : Json :=
  Json.obj [("task", Json.str t.task), ("completed", Json.bool t.completed),
    ("created", Json.str t.created)]

/-- The JSON document `json.dump` writes for a whole task list. -/
def encodeTodos (todos : List Task) : Json :=
  Json.arr (todos.map encodeTask)

/-- The byte-level states of the backing file distinguishable by
`TodoStorage.load_todos`: absent (`os.path.exists` false), unreadable
(`IOError` from open/read), holding bytes that are not valid UTF-8
(`UnicodeDecodeError` while reading), holding UTF-8 text that is not
valid JSON (`json.JSONDecodeError`), or holding a valid JSON document of
any shape. -/
inductive FileState where
  | absent
  | unreadable
  | undecodable
  | invalidJson
  | doc (v : Json)

/-- Embeds `TodoStorage.load_todos` at file level: a missing file and the
caught exceptions (`IOError`, `json.JSONDecodeError`) yield `[]`, and a
valid JSON document is returned as-is whatever its shape; but on a
non-UTF-8 file the `UnicodeDecodeError` raised while reading is a
`ValueError`, caught by neither branch of
`except (json.JSONDecodeError, IOError)`, so it escapes the function —
modelled as `none`. -/
def load_todos_file : FileState → Option Json
  | .absent => some (Json.arr [])
  | .unreadable => some (Json.arr [])
  | .undecodable => none
  | .invalidJson => some (Json.arr [])
  | .doc v => some v

/-- Sample pending task used by concrete witnesses. -/
def taskA : Task :=
  { task := "buy milk", completed := false, created := "2025-01-01 10:00" }

/-- Sample completed task used by concrete witnesses. -/
def taskB : Task :=
  { task := "write report", completed := true, created := "2025-01-02 11:30" }

/-- A successful index resolution yields the parsed integer together with
the validated bounds `1 <= n <= len(todos)`. -/
theorem resolve_elim {todos : List Task} {s : String} {n : Int}
    (h : get_valid_task_index todos s = some n) :
    pyInt s = some n ∧ 1 ≤ n ∧ n ≤ (todos.length : Int) := by
  unfold get_valid_task_index at h
  cases hp : pyInt s with
  | none => rw [hp] at h; cases h
  | some m =>
      rw [hp] at h
      dsimp only at h
      cases hv : validate_task_index todos m with
      | false => rw [hv] at h; simp at h
      | true =>
          rw [hv] at h; simp only [if_true] at h
          cases h
          refine ⟨rfl, ?_⟩
          unfold validate_task_index at hv
          exact of_decide_eq_true hv

/-- The zero-based position targeted by a resolved index is in bounds. -/
theorem resolve_idx_lt {todos : List Task} {s : String} {n : Int}
    (h : get_valid_task_index todos s = some n) :
    (n - 1).toNat < todos.length := by
  obtain ⟨-, h1, h2⟩ := resolve_elim h
  omega

/-- A list of positive length is not `isEmpty`. -/
theorem isEmpty_false_of_length_pos {α : Type} {l : List α} (h : 0 < l.length) :
    l.isEmpty = false := by
  cases l with
  | nil => simp at h
  | cons a t => rfl

/-- C1: after `save_todos T` a subsequent `load_todos` returns exactly `T`,
element for element and in order. -/
theorem storage_round_trip (T : List Task) (st : Store) :
    load_todos (save_todos T st) = T := rfl

/-- C5 counterexample: load is not total and does not degrade every bad
state to the empty list.  On a backing file whose bytes are not valid
UTF-8 the embedded load has no result at all (the uncaught
`UnicodeDecodeError`), and a file holding the valid JSON document `42` —
which is not the encoding of any task list, in particular not of the
empty one — is returned as-is, a non-empty non-list value. -/
theorem load_todos_crash_counterexample :
    load_todos_file FileState.undecodable = none ∧
    load_todos_file (FileState.doc (Json.num 42)) = some (Json.num 42) ∧
    Json.num 42 ≠ encodeTodos [] :=
  ⟨rfl, rfl, fun h => Json.noConfusion h⟩

/-- C5 amended: load returns the empty list for an absent, unreadable
(`IOError`) or JSON-malformed (`json.JSONDecodeError`) backing file, and
a stored well-formed task list loads back as exactly its own encoding;
however a backing file that is not valid UTF-8 makes load fail with an
uncaught error, and a valid JSON document of any other shape is returned
as-is rather than degraded to the empty list. -/
theorem load_todos_file_spec :
    load_todos_file FileState.absent = some (Json.arr []) ∧
    load_todos_file FileState.unreadable = some (Json.arr []) ∧
    load_todos_file FileState.invalidJson = some (Json.arr []) ∧
    load_todos_file FileState.undecodable = none ∧
    (∀ v : Json, load_todos_file (FileState.doc v) = some v) ∧
    (∀ todos : List Task,
      load_todos_file (FileState.doc (encodeTodos todos)) = some (encodeTodos todos)) :=
  ⟨rfl, rfl, rfl, rfl, fun _ => rfl, fun _ => rfl⟩

/-- C6: `get_valid_task_index` returns `none` whenever the string does not
parse as a base-10 integer, and whenever the parsed integer lies outside
`[1, len(todos)]`; no out-of-range value is clamped into range. -/
theorem resolveIndex_rejects (todos : List Task) (s : String) :
    (pyInt s = none → get_valid_task_index todos s = none) ∧
    (∀ n : Int, pyInt s = some n → (n < 1 ∨ (todos.length : Int) < n) →
      get_valid_task_index todos s = none) := by
  constructor
  · intro h
    unfold get_valid_task_index
    rw [h]
  · intro n h hout
    unfold get_valid_task_index
    rw [h]
    dsimp only
    have hv : validate_task_index todos n = false := by
      unfold validate_task_index
      rcases hout with h1 | h2 <;> · apply decide_eq_false; omega
    rw [hv]
    simp

/-- C6 witness: a non-numeric string and an out-of-range numeral are both
rejected on a concrete two-element list. -/
theorem resolveIndex_rejects_witness :
    get_valid_task_index [taskA, taskB] "abc" = none ∧
    get_valid_task_index [taskA, taskB] "5" = none :=
  ⟨(resolveIndex_rejects [taskA, taskB] "abc").1 (by decide),
   (resolveIndex_rejects [taskA, taskB] "5").2 5 (by decide) (by decide)⟩

/-- If every character surviving `dropWhile pyIsSpace` is whitespace, then
every character of the list is whitespace. -/
theorem all_space_of_dropWhile {l : List Char}
    (h : ∀ c ∈ l.dropWhile pyIsSpace, pyIsSpace c = true) :
    ∀ c ∈ l, pyIsSpace c = true := by
  intro c hc
  rw [← List.takeWhile_append_dropWhile pyIsSpace l] at hc
  rcases List.mem_append.1 hc with h1 | h2
  · exact List.mem_takeWhile_imp h1
  · exact h c h2

/-- Stripping yields the empty string exactly when every character of the
string is whitespace. -/
theorem pyStrip_eq_empty_iff (s : String) :
    pyStrip s = "" ↔ ∀ c ∈ s.data, pyIsSpace c = true := by
  unfold pyStrip
  constructor
  · intro h
    have h0 : ((s.data.dropWhile pyIsSpace).reverse.dropWhile pyIsSpace).reverse = [] :=
      congrArg String.data h
    rw [List.reverse_eq_nil_iff, List.dropWhile_eq_nil_iff] at h0
    apply all_space_of_dropWhile
    intro c hc
    exact h0 c (List.mem_reverse.2 hc)
  · intro h
    have h1 : s.data.dropWhile pyIsSpace = [] :=
      List.dropWhile_eq_nil_iff.2 h
    rw [h1]
    rfl

/-- The predicate `validate_task_text` is exactly non-emptiness of the stripped string
(the extra `task != ""` conjunct of `bool(task and task.strip())` is
redundant, since stripping the empty string gives the empty string). -/
theorem validate_task_text_eq (s : String) :
    validate_task_text s = (pyStrip s != "") := by
  unfold validate_task_text
  by_cases h : s = ""
  · subst h; rfl
  · have hb : (s != "") = true := bne_iff_ne.2 h
    rw [hb, Bool.true_and]

/-- C7: `validate_task_text` returns true exactly when the string has at
least one non-whitespace character; every string that is non-empty after
stripping passes, every empty or all-whitespace string fails. -/
theorem validate_task_text_spec (s : String) :
    (validate_task_text s = true ↔ ∃ c ∈ s.data, pyIsSpace c = false) ∧
    (pyStrip s ≠ "" → validate_task_text s = true) ∧
    (pyStrip s = "" → validate_task_text s = false) := by
  have he := pyStrip_eq_empty_iff s
  have hv := validate_task_text_eq s
  refine ⟨?_, ?_, ?_⟩
  · rw [hv]
    constructor
    · intro h
      have hne : pyStrip s ≠ "" := bne_iff_ne.1 h
      have : ¬ ∀ c ∈ s.data, pyIsSpace c = true := fun hall => hne (he.2 hall)
      push_neg at this
      obtain ⟨c, hc, hcs⟩ := this
      exact ⟨c, hc, Bool.eq_false_iff.2 hcs⟩
    · intro ⟨c, hc, hcs⟩
      apply bne_iff_ne.2
      intro hstrip
      have := he.1 hstrip c hc
      rw [this] at hcs
      cases hcs
  · intro h
    rw [hv]
    exact bne_iff_ne.2 h
  · intro h
    rw [hv, h]
    rfl

/-- C7 witness: a string with one letter amid whitespace passes, while a
whitespace-only string and a lone non-breaking space (stripped by Python
but not in the ASCII range) both fail. -/
theorem validate_task_text_spec_witness :
    validate_task_text " a " = true ∧ validate_task_text "  " = false ∧
    validate_task_text "\u00a0" = false :=
  ⟨(validate_task_text_spec " a ").2.1 (by decide),
   (validate_task_text_spec "  ").2.2 (by decide),
   (validate_task_text_spec "\u00a0").2.2 (by decide)⟩

/-- C8: soft failures leave the store untouched (same backing, same save
count, so `save_todos` was not invoked): empty-after-strip text makes
`add_task` return `False` without saving, and an unresolvable index makes
`remove_task` return `False` without saving. -/
theorem soft_failures_no_mutation :
    (∀ (text now : String) (st : Store), pyStrip text = "" →
      add_task text now st = (false, st)) ∧
    (∀ (s : String) (st : Store), get_valid_task_index (load_todos st) s = none →
      remove_task s st = some (false, st)) := by
  constructor
  · intro text now st h
    unfold add_task
    rw [validate_task_text_eq, h]
    rfl
  · intro s st h
    unfold remove_task
    cases hE : (load_todos st).isEmpty with
    | true => simp [hE]
    | false => simp [hE, h]

/-- C8 witness: adding the empty text or a non-breaking-space-only text to
an empty store changes nothing, and removing index 5 from a two-element
list changes nothing. -/
theorem soft_failures_no_mutation_witness :
    add_task "" "2025-01-01 10:00" ⟨Backing.stored [], 0⟩
      = (false, ⟨Backing.stored [], 0⟩) ∧
    add_task "\u00a0" "2025-01-01 10:00" ⟨Backing.stored [], 0⟩
      = (false, ⟨Backing.stored [], 0⟩) ∧
    remove_task "5" ⟨Backing.stored [taskA, taskB], 0⟩
      = some (false, ⟨Backing.stored [taskA, taskB], 0⟩) :=
  ⟨soft_failures_no_mutation.1 "" "2025-01-01 10:00" ⟨Backing.stored [], 0⟩ (by decide),
   soft_failures_no_mutation.1 "\u00a0" "2025-01-01 10:00" ⟨Backing.stored [], 0⟩ (by decide),
   soft_failures_no_mutation.2 "5" ⟨Backing.stored [taskA, taskB], 0⟩ (by decide)⟩

/-- C2: with a resolved storage-order position `i` (so `1 <= i <= len`),
`remove_task` returns `True` and saves a list one element shorter in which
positions before `i` are unchanged and positions from `i` on hold the task
previously one position later. -/
theorem remove_task_spec (todos : List Task) (s : String) (i k : Nat)
    (h : get_valid_task_index todos s = some (i : Int)) :
    remove_task s ⟨Backing.stored todos, k⟩
      = some (true, ⟨Backing.stored (todos.eraseIdx (i - 1)), k + 1⟩) ∧
    (todos.eraseIdx (i - 1)).length + 1 = todos.length ∧
    (∀ j : Nat, j + 1 < i → (todos.eraseIdx (i - 1))[j]? = todos[j]?) ∧
    (∀ j : Nat, i ≤ j + 1 → (todos.eraseIdx (i - 1))[j]? = todos[j + 1]?) := by
  obtain ⟨hpy, h1, h2⟩ := resolve_elim h
  have hi1 : 1 ≤ i := by exact_mod_cast h1
  have hi2 : i ≤ todos.length := by exact_mod_cast h2
  have htn : ((i : Int) - 1).toNat = i - 1 := by omega
  have hlt : i - 1 < todos.length := by omega
  refine ⟨?_, ?_, ?_, ?_⟩
  · have hE : todos.isEmpty = false :=
      isEmpty_false_of_length_pos (by omega)
    unfold remove_task
    simp only [load_todos, hE, Bool.false_eq_true, if_false, h, htn,
      List.getElem?_eq_getElem hlt, save_todos]
  · rw [List.length_eraseIdx_of_lt hlt]
    omega
  · intro j hj
    exact List.getElem?_eraseIdx_of_lt todos (i - 1) j (by omega)
  · intro j hj
    exact List.getElem?_eraseIdx_of_ge todos (i - 1) j (by omega)

/-- C2 witness: removing index 1 from a concrete two-element list returns
`True`, drops the length to 1, and shifts the second task into position 1. -/
theorem remove_task_spec_witness :
    remove_task "1" ⟨Backing.stored [taskA, taskB], 0⟩
      = some (true, ⟨Backing.stored ([taskA, taskB].eraseIdx 0), 0 + 1⟩) ∧
    ([taskA, taskB].eraseIdx 0).length + 1 = [taskA, taskB].length ∧
    ([taskA, taskB].eraseIdx 0)[0]? = [taskA, taskB][1]? :=
  have h := remove_task_spec [taskA, taskB] "1" 1 0 (by decide)
  ⟨h.1, h.2.1, h.2.2.2 0 (by decide)⟩

/-- C3: when no task is completed `clear_completed` returns `False` with
the store untouched; otherwise it returns `True` and saves exactly the
non-completed tasks, an order-preserving sublist of the original in which
every non-completed task of the original survives. -/
theorem clear_completed_spec (todos : List Task) (k : Nat) :
    ((∀ t ∈ todos, t.completed = false) →
      clear_completed ⟨Backing.stored todos, k⟩ = (false, ⟨Backing.stored todos, k⟩)) ∧
    ((∃ t ∈ todos, t.completed = true) →
      clear_completed ⟨Backing.stored todos, k⟩
        = (true, ⟨Backing.stored (todos.filter (fun t => !t.completed)), k + 1⟩) ∧
      (todos.filter (fun t => !t.completed)).Sublist todos ∧
      (∀ t ∈ todos.filter (fun t => !t.completed), t.completed = false) ∧
      (∀ t ∈ todos, t.completed = false → t ∈ todos.filter (fun t => !t.completed))) := by
  constructor
  · intro h
    have hc : (load_todos ⟨Backing.stored todos, k⟩).countP (·.completed) = 0 :=
      List.countP_eq_zero.2 (fun t ht => by rw [h t ht]; exact Bool.false_ne_true)
    unfold clear_completed
    rw [if_pos hc]
  · intro ⟨t, ht, htc⟩
    have hc : (load_todos ⟨Backing.stored todos, k⟩).countP (·.completed) ≠ 0 := by
      intro h0
      have := List.countP_eq_zero.1 h0 t ht
      exact this htc
    refine ⟨?_, List.filter_sublist todos, ?_, ?_⟩
    · unfold clear_completed
      rw [if_neg hc]
      rfl
    · intro u hu
      have := List.of_mem_filter hu
      simpa using this
    · intro u hu huc
      exact List.mem_filter.2 ⟨hu, by rw [huc]; rfl⟩

/-- C3 witness: a list with one pending task is left untouched, while a
list with one pending and one completed task is filtered down to the
pending task with result `True`. -/
theorem clear_completed_spec_witness :
    clear_completed ⟨Backing.stored [taskA], 5⟩ = (false, ⟨Backing.stored [taskA], 5⟩) ∧
    clear_completed ⟨Backing.stored [taskA, taskB], 0⟩
      = (true, ⟨Backing.stored ([taskA, taskB].filter (fun t => !t.completed)), 0 + 1⟩) :=
  ⟨(clear_completed_spec [taskA] 5).1 (by decide),
   ((clear_completed_spec [taskA, taskB] 0).2 ⟨taskB, by decide, rfl⟩).1⟩

/-- C4: completing a not-yet-completed task at a resolved index succeeds
(returns `True` and saves the task with `completed = True`), and repeating
the same call returns `False` while leaving the store exactly as the first
call left it. -/
theorem complete_task_idempotent (todos : List Task) (s : String) (i k : Nat) (t : Task)
    (h : get_valid_task_index todos s = some (i : Int))
    (ht : todos[i - 1]? = some t) (hnc : t.completed = false) :
    complete_task s ⟨Backing.stored todos, k⟩
      = some (true,
          ⟨Backing.stored (todos.set (i - 1) { t with completed := true }), k + 1⟩) ∧
    (todos.set (i - 1) { t with completed := true })[i - 1]?
      = some { t with completed := true } ∧
    complete_task s ⟨Backing.stored (todos.set (i - 1) { t with completed := true }), k + 1⟩
      = some (false,
          ⟨Backing.stored (todos.set (i - 1) { t with completed := true }), k + 1⟩) := by
  obtain ⟨hpy, h1, h2⟩ := resolve_elim h
  have hi1 : 1 ≤ i := by exact_mod_cast h1
  have hi2 : i ≤ todos.length := by exact_mod_cast h2
  have htn : ((i : Int) - 1).toNat = i - 1 := by omega
  have hlt : i - 1 < todos.length := by omega
  have hlen2 : (todos.set (i - 1) { t with completed := true }).length = todos.length :=
    List.length_set todos ..
  have hget2 : (todos.set (i - 1) { t with completed := true })[i - 1]?
      = some { t with completed := true } :=
    List.getElem?_set_self (by omega)
  have hres2 : get_valid_task_index (todos.set (i - 1) { t with completed := true }) s
      = some (i : Int) := by
    unfold get_valid_task_index
    rw [hpy]
    dsimp only
    have hv : validate_task_index (todos.set (i - 1) { t with completed := true }) (i : Int)
        = true := by
      unfold validate_task_index
      rw [hlen2]
      exact decide_eq_true ⟨h1, h2⟩
    rw [hv]
    simp
  refine ⟨?_, hget2, ?_⟩
  · have hE : todos.isEmpty = false := isEmpty_false_of_length_pos (by omega)
    unfold complete_task
    simp [load_todos, hE, h, htn, ht, hnc, save_todos]
  · have hE2 : (todos.set (i - 1) { t with completed := true }).isEmpty = false :=
      isEmpty_false_of_length_pos (by omega)
    unfold complete_task
    simp [load_todos, hE2, hres2, htn, hget2]

/-- C4 witness: completing task 1 of a concrete one-element pending list
returns `True` and marks it completed; the identical second call returns
`False` and changes nothing. -/
theorem complete_task_idempotent_witness :
    complete_task "1" ⟨Backing.stored [taskA], 0⟩
      = some (true, ⟨Backing.stored ([taskA].set 0 { taskA with completed := true }), 0 + 1⟩) ∧
    complete_task "1" ⟨Backing.stored ([taskA].set 0 { taskA with completed := true }), 0 + 1⟩
      = some (false,
          ⟨Backing.stored ([taskA].set 0 { taskA with completed := true }), 0 + 1⟩) :=
  have h := complete_task_idempotent [taskA] "1" 1 0 taskA (by decide) (by decide) rfl
  ⟨h.1, h.2.2⟩

/-- C10: a successfully resolved index always lies in `[1, len]`, so the
corresponding zero-based element access succeeds, and neither
`complete_task` nor `remove_task` can hit the `IndexError` branch
(modelled as a `none` result). -/
theorem index_bounds_safe :
    (∀ (todos : List Task) (s : String) (n : Int),
        get_valid_task_index todos s = some n →
        1 ≤ n ∧ n ≤ (todos.length : Int) ∧ todos[(n - 1).toNat]?.isSome = true) ∧
    (∀ (s : String) (st : Store), complete_task s st ≠ none) ∧
    (∀ (s : String) (st : Store), remove_task s st ≠ none) := by
  refine ⟨?_, ?_, ?_⟩
  · intro todos s n h
    obtain ⟨-, h1, h2⟩ := resolve_elim h
    refine ⟨h1, h2, ?_⟩
    rw [List.getElem?_eq_getElem (resolve_idx_lt h)]
    rfl
  · intro s st
    unfold complete_task
    dsimp only
    cases hE : (load_todos st).isEmpty with
    | true => simp [hE]
    | false =>
        simp only [hE, Bool.false_eq_true, if_false]
        cases hr : get_valid_task_index (load_todos st) s with
        | none => simp
        | some n =>
            dsimp only
            rw [List.getElem?_eq_getElem (resolve_idx_lt hr)]
            dsimp only
            split <;> simp
  · intro s st
    unfold remove_task
    dsimp only
    cases hE : (load_todos st).isEmpty with
    | true => simp [hE]
    | false =>
        simp only [hE, Bool.false_eq_true, if_false]
        cases hr : get_valid_task_index (load_todos st) s with
        | none => simp
        | some n =>
            dsimp only
            rw [List.getElem?_eq_getElem (resolve_idx_lt hr)]
            simp

/-- C10 witness: on a concrete two-element list the resolved index 1 is in
bounds and the element access succeeds. -/
theorem index_bounds_safe_witness :
    1 ≤ (1 : Int) ∧ (1 : Int) ≤ (([taskA, taskB] : List Task).length : Int) ∧
    ([taskA, taskB] : List Task)[((1 : Int) - 1).toNat]?.isSome = true :=
  index_bounds_safe.1 [taskA, taskB] "1" 1 (by decide)

/-- C9: on a non-empty list, `list_tasks` renders the pending tasks first
(an order-preserving selection of the non-completed tasks, numbered from
1), then the completed tasks (numbered continuing from `len(pending) + 1`),
the two groups together being a permutation of the stored list, and a
summary whose counts are the true sizes of the list and of the groups. -/
theorem list_tasks_spec (st : Store) (h : load_todos st ≠ []) :
    ∃ out : ListOutput, list_tasks st = some out ∧
      (out.pendingLines.map Prod.snd).Sublist (load_todos st) ∧
      (out.completedLines.map Prod.snd).Sublist (load_todos st) ∧
      (∀ p ∈ out.pendingLines, p.2.completed = false) ∧
      (∀ p ∈ out.completedLines, p.2.completed = true) ∧
      (out.pendingLines.map Prod.snd ++ out.completedLines.map Prod.snd).Perm
        (load_todos st) ∧
      out.pendingLines.map Prod.fst = List.range' 1 out.pendingCount ∧
      out.completedLines.map Prod.fst
        = List.range' (out.pendingCount + 1) out.completedCount ∧
      out.pendingCount = out.pendingLines.length ∧
      out.completedCount = out.completedLines.length ∧
      out.total = (load_todos st).length ∧
      out.total = out.pendingCount + out.completedCount := by
  have hE : (load_todos st).isEmpty = false := by
    cases hl : load_todos st with
    | nil => exact absurd hl h
    | cons a l => rfl
  refine ⟨{ pendingLines :=
              List.enumFrom 1 ((load_todos st).filter (fun t => !t.completed))
            completedLines :=
              List.enumFrom (((load_todos st).filter (fun t => !t.completed)).length + 1)
                ((load_todos st).filter (·.completed))
            total := (load_todos st).length
            completedCount := ((load_todos st).filter (·.completed)).length
            pendingCount := ((load_todos st).filter (fun t => !t.completed)).length },
          ?_, ?_, ?_, ?_, ?_, ?_, ?_, ?_, ?_, ?_, ?_, ?_⟩
  · unfold list_tasks
    simp [hE]
  · rw [List.enumFrom_map_snd]
    exact List.filter_sublist _
  · rw [List.enumFrom_map_snd]
    exact List.filter_sublist _
  · intro p hp
    have hm : p.2 ∈ (load_todos st).filter (fun t => !t.completed) := by
      rw [← List.enumFrom_map_snd 1 ((load_todos st).filter (fun t => !t.completed))]
      exact List.mem_map_of_mem Prod.snd hp
    have := List.of_mem_filter hm
    simpa using this
  · intro p hp
    have hm : p.2 ∈ (load_todos st).filter (·.completed) := by
      rw [← List.enumFrom_map_snd
        (((load_todos st).filter (fun t => !t.completed)).length + 1)
        ((load_todos st).filter (·.completed))]
      exact List.mem_map_of_mem Prod.snd hp
    exact List.of_mem_filter hm
  · rw [List.enumFrom_map_snd, List.enumFrom_map_snd]
    have hp := List.filter_append_perm (fun t => !t.completed) (load_todos st)
    simpa [Bool.not_not] using hp
  · rw [List.enumFrom_map_fst]
  · rw [List.enumFrom_map_fst]
  · rw [List.enumFrom_length]
  · rw [List.enumFrom_length]
  · rfl
  · have hp := (List.filter_append_perm (fun t => !t.completed) (load_todos st)).length_eq
    rw [List.length_append] at hp
    simp only [Bool.not_not] at hp
    dsimp only
    omega

/-- C9 witness: listing a concrete store with one pending and one completed
task produces some structured output. -/
theorem list_tasks_spec_witness :
    (list_tasks ⟨Backing.stored [taskA, taskB], 0⟩).isSome = true := by
  obtain ⟨out, hout, -⟩ := list_tasks_spec ⟨Backing.stored [taskA, taskB], 0⟩ (by decide)
  rw [hout]
  rfl

end Todo
